/-
Verification of the blackjack game engine of this repository.

Shallow embedding of:
  * src/app/models/card.py        (Suit, Rank, RANK_VALUES, Card)
  * src/app/models/database.py    (GameStatus, Player, GameSession fields)
  * src/app/core/config.py        (Settings and its defaults)
  * src/app/services/game_service.py
        (ScoreCalculator, GameService.start_game / hit / stand /
         get_game_state / reset_player)

Modelling conventions:
  * Machine integers are `Int` (balances, bets, payouts) or `Nat`
    (scores, counters); Python ints are unbounded so no wrap-around is
    modelled.
  * Decks are lists with the TOP card FIRST: the Python code stores the
    top of the deck at the END of the list and pops from the end, so the
    Lean list is the reverse of the serialized Python list and every pop
    becomes head/tail.  Hands keep the Python order (cards appended at
    the end).
  * The database session is modelled as the state of one player: the
    player row plus the list of that player's game rows, with the
    autoincrement primary key modelled by `next_id`.
  * Python float arithmetic appears only in
    `int(bet * (1 + settings.blackjack_payout))`; it is modelled over ℚ
    with `Int.floor`, which agrees with the Python value for the default
    multiplier 1.5 and the admissible bet range (the double product is
    exact there and `int` truncation of a non-negative value is floor).
-/
import Mathlib

deriving instance DecidableEq for Except

namespace Blackjack

/-- Card suits (card.py `Suit`); the string value of each member is the
suit symbol used by `to_dict`. -/
inductive Suit
  | spades | hearts | diamonds | clubs
  deriving DecidableEq

/-- Card ranks (card.py `Rank`). -/
inductive Rank
  | ace | two | three | four | five | six | seven | eight | nine | ten
  | jack | queen | king
  deriving DecidableEq

/-- card.py `RANK_VALUES`: base value of each rank (ace is 11 here and is
handled specially in the score calculation). -/
def RANK_VALUES : Rank → Nat
  | .ace => 11
  | .two => 2
  | .three => 3
  | .four => 4
  | .five => 5
  | .six => 6
  | .seven => 7
  | .eight => 8
  | .nine => 9
  | .ten => 10
  | .jack => 10
  | .queen => 10
  | .king => 10

/-- card.py `Card`: immutable value object, equality by (suit, rank). -/
structure Card where
  suit : Suit
  rank : Rank
  deriving DecidableEq

/-- card.py `Card.value`. -/
def Card.value (c : Card) : Nat := RANK_VALUES c.rank

/-- card.py `Card.is_ace`. -/
def Card.is_ace (c : Card) : Bool := c.rank == Rank.ace

/-- The ace loop of `ScoreCalculator.calculate`: for each ace add 11 if
the running total stays ≤ 21, else add 1. -/
def add_aces : Nat → Nat → Nat
  | 0, score => score
  | aces + 1, score =>
      add_aces aces (if score + 11 ≤ 21 then score + 11 else score + 1)

/-- game_service.py `ScoreCalculator.calculate`: one pass sums the
non-ace base values and counts the aces, then the ace loop runs. -/
def calculate (cards : List Card) : Nat :=
  let p := cards.foldl
    (fun (sa : Nat × Nat) c =>
      if c.is_ace then (sa.1, sa.2 + 1) else (sa.1 + c.value, sa.2))
    (0, 0)
  add_aces p.2 p.1

/-- game_service.py `ScoreCalculator.is_bust`: score > 21. -/
def is_bust (score : Nat) : Bool := decide (score > 21)

/-- game_service.py `ScoreCalculator.is_blackjack`: exactly two cards
totalling 21. -/
def is_blackjack (cards : List Card) : Bool :=
  if cards.length != 2 then false else calculate cards == 21

/-- Modelled from the spec (§4.2, claim C1): the best achievable
blackjack value of a hand — the maximum, over all assignments of 1 or 11
to each ace, of the totals that stay ≤ 21, or the minimum total when
every assignment busts.  An assignment valuing k of the a aces at 11 and
the rest at 1 totals base + a + 10·k, and every k in 0..a is achievable,
so those are exactly the assignment totals. -/
def spec_best_score (cards : List Card) : Nat :=
  let base := (cards.filter fun c => !c.is_ace).foldl (fun s c => s + c.value) 0
  let a := (cards.filter fun c => c.is_ace).length
  let totals := (List.range (a + 1)).map fun k => base + a + 10 * k
  let ok := totals.filter fun t => decide (t ≤ 21)
  if ok.isEmpty then
    match totals with
    | [] => 0
    | t :: ts => ts.foldl min t
  else ok.foldl max 0

/-- config.py `Settings` (the game-relevant fields).  `blackjack_payout`
is a Python float; it is modelled over ℚ (see the header note). -/
structure Settings where
  initial_balance : Int
  min_bet : Int
  max_bet : Int
  dealer_stand_threshold : Nat
  blackjack_payout : ℚ

/-- config.py defaults: initial_balance 100, min_bet 1, max_bet 1000,
dealer_stand_threshold 17, blackjack_payout 1.5. -/
def defaultSettings : Settings :=
  { initial_balance := 100, min_bet := 1, max_bet := 1000,
    dealer_stand_threshold := 17, blackjack_payout := 3 / 2 }

/-- database.py `GameStatus`. -/
inductive GameStatus
  | in_progress | player_win | dealer_win | push | player_bust
  | dealer_bust | blackjack
  deriving DecidableEq

/-- database.py `Player` (game-relevant columns; identifiers and
timestamps are omitted: the state below is already per-player). -/
structure Player where
  balance : Int
  total_games : Nat
  total_wins : Nat
  total_losses : Nat
  total_pushes : Nat
  deriving DecidableEq

/-- database.py `GameSession` (game-relevant columns; timestamps are
omitted).  `deck_state` and the hands hold `Card` values since the JSON
encoding of card.py round-trips losslessly; the deck list is top-first
(see the header note). -/
structure GameSession where
  id : Nat
  bet_amount : Int
  status : GameStatus
  player_hand : List Card
  dealer_hand : List Card
  deck_state : List Card
  player_score : Nat
  dealer_score : Nat
  payout : Int
  message : String
  deriving DecidableEq

/-- The database state for one player: the player row, that player's
game rows, and the autoincrement counter for game primary keys. -/
structure PState where
  player : Player
  games : List GameSession
  next_id : Nat
  deriving DecidableEq

/-- `GameService.get_or_create_player` on first contact: a fresh player
with the configured initial balance and zeroed totals, no games. -/
def init_state (s : Settings) : PState :=
  { player := { balance := s.initial_balance, total_games := 0,
                total_wins := 0, total_losses := 0, total_pushes := 0 },
    games := [], next_id := 0 }

/-- `GameService.get_active_game`: the player's game row with status
IN_PROGRESS, if any. -/
def get_active_game (games : List GameSession) : Option GameSession :=
  games.find? fun g => g.status == GameStatus.in_progress

/-- In-place mutation of a game row, keyed by primary key: every row
with the id of `g` is replaced by `g`. -/
def update_game (games : List GameSession) (g : GameSession) : List GameSession :=
  games.map fun h => if h.id == g.id then g else h

/-- `int(bet * (1 + settings.blackjack_payout))` of
`GameService.start_game`: Python `int` truncates toward zero, which is
the floor for the non-negative products the validated bets produce (and
the double product is exact at the default multiplier 1.5 for the
admissible bet range). -/
def blackjack_payout_amount (s : Settings) (bet : Int) : Int :=
  ⌊(bet : ℚ) * (1 + s.blackjack_payout)⌋

/-- `GameService.start_game`.  The freshly shuffled `Deck()` enters as
the `deck` parameter (top card first).  The result is the state after
the call together with the Python return value: the created game row, or
the rejection reason with the state unchanged (the code returns before
mutating anything on every rejection path).  The final catch-all branch
is unreachable for real decks — `Deck()` always holds 52 cards and only
4 are drawn — and exists only to make the function total. -/
def start_game (s : Settings) (deck : List Card) (st : PState) (bet : Int) :
    PState × Except String GameSession :=
  if bet < s.min_bet then
    (st, Except.error ("Minimum bet is $" ++ toString s.min_bet))
  else if bet > s.max_bet then
    (st, Except.error ("Maximum bet is $" ++ toString s.max_bet))
  else if bet > st.player.balance then
    (st, Except.error "Insufficient balance")
  else
    match get_active_game st.games with
    | some _ => (st, Except.error "Game already in progress")
    | none =>
      match deck with
      | c1 :: c2 :: c3 :: c4 :: rest =>
        let player1 := { st.player with balance := st.player.balance - bet }
        let player_hand := [c1, c2]
        let dealer_hand := [c3, c4]
        let game0 : GameSession :=
          { id := st.next_id, bet_amount := bet,
            status := GameStatus.in_progress,
            player_hand := player_hand, dealer_hand := dealer_hand,
            deck_state := rest,
            player_score := calculate player_hand,
            dealer_score := calculate dealer_hand,
            payout := 0, message := "" }
        if is_blackjack player_hand then
          if is_blackjack dealer_hand then
            let game :=
              { game0 with
                status := GameStatus.push,
                message := "Both have Blackjack! Push!",
                payout := bet }
            let player2 :=
              { player1 with
                balance := player1.balance + bet,
                total_pushes := player1.total_pushes + 1,
                total_games := player1.total_games + 1 }
            ({ player := player2, games := st.games ++ [game],
               next_id := st.next_id + 1 }, Except.ok game)
          else
            let payout := blackjack_payout_amount s bet
            let game :=
              { game0 with
                status := GameStatus.blackjack,
                message := "Blackjack! You win!",
                payout := payout }
            let player2 :=
              { player1 with
                balance := player1.balance + payout,
                total_wins := player1.total_wins + 1,
                total_games := player1.total_games + 1 }
            ({ player := player2, games := st.games ++ [game],
               next_id := st.next_id + 1 }, Except.ok game)
        else
          ({ player := player1, games := st.games ++ [game0],
             next_id := st.next_id + 1 }, Except.ok game0)
      | _ => (st, Except.error "deck too small")

/-- `GameService.hit`: requires an active game; rejects with
"Deck is empty" when the persisted deck is exhausted (no refill happens
here — the service pops from the reconstructed list, it does not call
`Deck.draw`); otherwise draws one card into the player hand, recomputes
the score, and on bust settles the game as PLAYER_BUST. -/
def hit (st : PState) : PState × Except String GameSession :=
  match get_active_game st.games with
  | none => (st, Except.error "No active game")
  | some game =>
    match game.deck_state with
    | [] => (st, Except.error "Deck is empty")
    | new_card :: rest =>
      let player_hand := game.player_hand ++ [new_card]
      let pscore := calculate player_hand
      let g1 :=
        { game with
          player_hand := player_hand,
          deck_state := rest, player_score := pscore }
      if is_bust pscore then
        let g2 :=
          { g1 with
            status := GameStatus.player_bust,
            message := "Bust! You lose!" }
        let p2 :=
          { st.player with
            total_games := st.player.total_games + 1,
            total_losses := st.player.total_losses + 1 }
        ({ st with player := p2, games := update_game st.games g2 },
         Except.ok g2)
      else
        ({ st with games := update_game st.games g1 }, Except.ok g1)

/-- The dealer loop of `GameService.stand`:
`while dealer_score < threshold and deck_cards: draw`.  Returns the
final dealer hand and the remaining deck. -/
def dealer_loop (t : Nat) (hand : List Card) : List Card → List Card × List Card
  | [] => (hand, [])
  | c :: rest =>
    if calculate hand < t then dealer_loop t (hand ++ [c]) rest
    else (hand, c :: rest)

/-- `GameService.stand`: requires an active game; plays the dealer out
per `dealer_loop`, then resolves with the precedence dealer-bust,
dealer > player, dealer < player, push, crediting the payout and
bumping the counters. -/
def stand (s : Settings) (st : PState) : PState × Except String GameSession :=
  match get_active_game st.games with
  | none => (st, Except.error "No active game")
  | some game =>
    let r := dealer_loop s.dealer_stand_threshold game.dealer_hand game.deck_state
    let dscore := calculate r.1
    let g1 :=
      { game with
        dealer_hand := r.1, deck_state := r.2,
        dealer_score := dscore }
    let pscore := game.player_score
    let p1 := { st.player with total_games := st.player.total_games + 1 }
    if is_bust dscore then
      let g2 :=
        { g1 with
          status := GameStatus.dealer_bust,
          message := "Dealer busts! You win!",
          payout := game.bet_amount * 2 }
      let p2 :=
        { p1 with
          balance := p1.balance + game.bet_amount * 2,
          total_wins := p1.total_wins + 1 }
      ({ st with player := p2, games := update_game st.games g2 },
       Except.ok g2)
    else if dscore > pscore then
      let g2 :=
        { g1 with
          status := GameStatus.dealer_win,
          message := "Dealer wins!" }
      let p2 := { p1 with total_losses := p1.total_losses + 1 }
      ({ st with player := p2, games := update_game st.games g2 },
       Except.ok g2)
    else if dscore < pscore then
      let g2 :=
        { g1 with
          status := GameStatus.player_win,
          message := "You win!",
          payout := game.bet_amount * 2 }
      let p2 :=
        { p1 with
          balance := p1.balance + game.bet_amount * 2,
          total_wins := p1.total_wins + 1 }
      ({ st with player := p2, games := update_game st.games g2 },
       Except.ok g2)
    else
      let g2 :=
        { g1 with
          status := GameStatus.push,
          message := "Push!",
          payout := game.bet_amount }
      let p2 :=
        { p1 with
          balance := p1.balance + game.bet_amount,
          total_pushes := p1.total_pushes + 1 }
      ({ st with player := p2, games := update_game st.games g2 },
       Except.ok g2)

/-- `GameService.reset_player`: balance back to the configured initial
value, everything else untouched. -/
def reset_player (s : Settings) (st : PState) : PState :=
  { st with player := { st.player with balance := s.initial_balance } }

/-- card.py `Card.to_dict` image: the JSON object with the suit symbol,
the rank string and the base value. -/
structure CardJson where
  suit : String
  rank : String
  value : Nat
  deriving DecidableEq

/-- card.py `Suit` member string values. -/
def Suit.str : Suit → String
  | .spades => "♠"
  | .hearts => "♥"
  | .diamonds => "♦"
  | .clubs => "♣"

/-- card.py `Rank` member string values. -/
def Rank.str : Rank → String
  | .ace => "A"
  | .two => "2"
  | .three => "3"
  | .four => "4"
  | .five => "5"
  | .six => "6"
  | .seven => "7"
  | .eight => "8"
  | .nine => "9"
  | .ten => "10"
  | .jack => "J"
  | .queen => "Q"
  | .king => "K"

/-- card.py `Card.to_dict`. -/
def Card.to_dict (c : Card) : CardJson :=
  { suit := c.suit.str, rank := c.rank.str, value := c.value }

/-- The sentinel hidden card of `GameService.get_game_state`:
`{"suit": "?", "rank": "?", "value": 0}`. -/
def hidden_card : CardJson := { suit := "?", rank := "?", value := 0 }

/-- The client-facing view built by `GameService.get_game_state`. -/
structure GameView where
  playerHand : List CardJson
  dealerHand : List CardJson
  playerScore : Nat
  dealerScore : Nat
  balance : Int
  bet : Int
  gameOver : Bool
  message : String
  deriving DecidableEq

/-- `GameService.get_game_state`: while the game is IN_PROGRESS the
dealer hand is shown as its first card plus the sentinel hidden card and
the exposed dealer score is the first card's serialized value; otherwise
the full hand and the stored dealer score are shown.  `none` models the
IndexError the Python code would raise on an empty dealer hand (dealt
games always hold two dealer cards). -/
def get_game_state (game : GameSession) (player : Player) : Option GameView :=
  let dealer : Option (List CardJson × Nat) :=
    if game.status = GameStatus.in_progress then
      match game.dealer_hand with
      | [] => none
      | d0 :: _ => some ([Card.to_dict d0, hidden_card], d0.value)
    else
      some (game.dealer_hand.map Card.to_dict, game.dealer_score)
  match dealer with
  | none => none
  | some dh =>
    some { playerHand := game.player_hand.map Card.to_dict,
           dealerHand := dh.1,
           playerScore := game.player_score,
           dealerScore := dh.2,
           balance := player.balance,
           bet := game.bet_amount,
           gameOver := game.status != GameStatus.in_progress,
           message := game.message }

/-- Number of IN_PROGRESS game rows of the player. -/
def active_count (games : List GameSession) : Nat :=
  (games.filter fun g => g.status == GameStatus.in_progress).length

/-- The primary keys of the player's game rows. -/
def ids (games : List GameSession) : List Nat := games.map fun g => g.id

/-- The database invariants of the per-player state: at most one active
game, primary keys distinct, primary keys below the autoincrement
counter. -/
def StateInv (st : PState) : Prop :=
  active_count st.games ≤ 1 ∧ (ids st.games).Nodup ∧
    ∀ i ∈ ids st.games, i < st.next_id

/-- The states reachable through the service: a freshly created player,
closed under `start_game` (any shuffled deck, any bet), `hit`, `stand`
and `reset_player`. -/
inductive Reachable : PState → Prop
  | init (s : Settings) : Reachable (init_state s)
  | start_step (s : Settings) (deck : List Card) (bet : Int) {st : PState} :
      Reachable st → Reachable (start_game s deck st bet).1
  | hit_step {st : PState} : Reachable st → Reachable (hit st).1
  | stand_step (s : Settings) {st : PState} :
      Reachable st → Reachable (stand s st).1
  | reset_step (s : Settings) {st : PState} :
      Reachable st → Reachable (reset_player s st)

/-! Concrete cards and states used by witnesses and counterexamples. -/

def c_ace_s : Card := ⟨Suit.spades, Rank.ace⟩
def c_king_h : Card := ⟨Suit.hearts, Rank.king⟩
def c_ten_s : Card := ⟨Suit.spades, Rank.ten⟩
def c_nine_d : Card := ⟨Suit.diamonds, Rank.nine⟩
def c_seven_c : Card := ⟨Suit.clubs, Rank.seven⟩
def c_five_h : Card := ⟨Suit.hearts, Rank.five⟩
def c_two_s : Card := ⟨Suit.spades, Rank.two⟩

/-- A four-card shuffled-deck prefix dealing player 10♠5♥ (15) and
dealer 9♦7♣ (16), leaving the persisted deck empty. -/
def deck_plain : List Card := [c_ten_s, c_five_h, c_nine_d, c_seven_c]

/-- State after `start_game` with `deck_plain` and bet 10: one active
game, empty persisted deck, balance 90. -/
def st_active : PState :=
  (start_game defaultSettings deck_plain (init_state defaultSettings) 10).1

/-- Like `st_active` but with one card left in the persisted deck. -/
def st_active2 : PState :=
  (start_game defaultSettings (deck_plain ++ [c_two_s])
    (init_state defaultSettings) 10).1

/-- The active game row inside `st_active`. -/
def g_active : GameSession :=
  { id := 0, bet_amount := 10, status := GameStatus.in_progress,
    player_hand := [c_ten_s, c_five_h], dealer_hand := [c_nine_d, c_seven_c],
    deck_state := [], player_score := 15, dealer_score := 16,
    payout := 0, message := "" }

/-- The active game row inside `st_active2`. -/
def g_active2 : GameSession := { g_active with deck_state := [c_two_s] }

/-- `start_game` on a deck dealing the player A♠K♥ (a natural) and the
dealer 9♦7♣, with the odd bet 5. -/
def start_bj5 : PState × Except String GameSession :=
  start_game defaultSettings [c_ace_s, c_king_h, c_nine_d, c_seven_c]
    (init_state defaultSettings) 5

/-- A terminal game row (for the presentation-adapter claim). -/
def g_done : GameSession :=
  { g_active with status := GameStatus.dealer_win, message := "Dealer wins!" }

/-! # Theorems -/

/-- C1 (code_bug evidence): the spec says `score(hand)` equals the best
achievable value, but on the hand 10♠ A♥ A♠ the code's greedy loop
commits the first ace to 11 (10+11 = 21 ≤ 21) and is then forced to 22
by the second ace, while the best achievable value is 12 (both aces
as 1).  The code returns a bust for a hand that is not bust. -/
theorem c1_calculate_not_best_value :
    calculate [⟨Suit.spades, Rank.ten⟩, ⟨Suit.hearts, Rank.ace⟩,
        ⟨Suit.spades, Rank.ace⟩] = 22 ∧
    spec_best_score [⟨Suit.spades, Rank.ten⟩, ⟨Suit.hearts, Rank.ace⟩,
        ⟨Suit.spades, Rank.ace⟩] = 12 := by
  constructor
  · rfl
  · rfl

/-! Helper lemmas: the four rejection paths of `start_game`. -/

lemma start_reject_min {s : Settings} {deck : List Card} {st : PState}
    {bet : Int} (h : bet < s.min_bet) :
    start_game s deck st bet =
      (st, Except.error ("Minimum bet is $" ++ toString s.min_bet)) := by
  unfold start_game
  rw [if_pos h]

lemma start_reject_max {s : Settings} {deck : List Card} {st : PState}
    {bet : Int} (h1 : ¬ bet < s.min_bet) (h2 : bet > s.max_bet) :
    start_game s deck st bet =
      (st, Except.error ("Maximum bet is $" ++ toString s.max_bet)) := by
  unfold start_game
  rw [if_neg h1, if_pos h2]

lemma start_reject_balance {s : Settings} {deck : List Card} {st : PState}
    {bet : Int} (h1 : ¬ bet < s.min_bet) (h2 : ¬ bet > s.max_bet)
    (h3 : bet > st.player.balance) :
    start_game s deck st bet = (st, Except.error "Insufficient balance") := by
  unfold start_game
  rw [if_neg h1, if_neg h2, if_pos h3]

lemma start_reject_active {s : Settings} {deck : List Card} {st : PState}
    {bet : Int} {g : GameSession} (h1 : ¬ bet < s.min_bet)
    (h2 : ¬ bet > s.max_bet) (h3 : ¬ bet > st.player.balance)
    (h4 : get_active_game st.games = some g) :
    start_game s deck st bet =
      (st, Except.error "Game already in progress") := by
  unfold start_game
  rw [if_neg h1, if_neg h2, if_neg h3, h4]

/-- C6: `start_game` rejects with the specific reason whenever the bet is
below the minimum, above the maximum, above the balance, or a game is
already IN_PROGRESS, and every rejected call returns the state unchanged:
same player row (balance and counters) and same game rows, no new game. -/
theorem c6_start_rejected_unchanged (s : Settings) (deck : List Card)
    (st : PState) (bet : Int) :
    (bet < s.min_bet →
      start_game s deck st bet =
        (st, Except.error ("Minimum bet is $" ++ toString s.min_bet))) ∧
    (s.min_bet ≤ bet → s.max_bet < bet →
      start_game s deck st bet =
        (st, Except.error ("Maximum bet is $" ++ toString s.max_bet))) ∧
    (s.min_bet ≤ bet → bet ≤ s.max_bet → st.player.balance < bet →
      start_game s deck st bet = (st, Except.error "Insufficient balance")) ∧
    (∀ g, s.min_bet ≤ bet → bet ≤ s.max_bet → bet ≤ st.player.balance →
      get_active_game st.games = some g →
      start_game s deck st bet =
        (st, Except.error "Game already in progress")) := by
  refine ⟨fun h => start_reject_min h, fun h1 h2 => ?_, fun h1 h2 h3 => ?_,
    fun g h1 h2 h3 h4 => ?_⟩
  · exact start_reject_max (by omega) (by omega)
  · exact start_reject_balance (by omega) (by omega) (by omega)
  · exact start_reject_active (by omega) (by omega) (by omega) h4

/-- C6 witness: bets 0, 1001 and 150 (against balance 100) are rejected
with the state unchanged, and a second start against an active game is
rejected with "Game already in progress". -/
theorem c6_witness :
    start_game defaultSettings deck_plain (init_state defaultSettings) 0 =
      (init_state defaultSettings, Except.error "Minimum bet is $1") ∧
    start_game defaultSettings deck_plain (init_state defaultSettings) 1001 =
      (init_state defaultSettings, Except.error "Maximum bet is $1000") ∧
    start_game defaultSettings deck_plain (init_state defaultSettings) 150 =
      (init_state defaultSettings, Except.error "Insufficient balance") ∧
    start_game defaultSettings deck_plain st_active 10 =
      (st_active, Except.error "Game already in progress") := by
  refine ⟨?_, ?_, ?_, ?_⟩
  · exact (c6_start_rejected_unchanged defaultSettings deck_plain
      (init_state defaultSettings) 0).1 (by decide)
  · exact (c6_start_rejected_unchanged defaultSettings deck_plain
      (init_state defaultSettings) 1001).2.1 (by decide) (by decide)
  · exact (c6_start_rejected_unchanged defaultSettings deck_plain
      (init_state defaultSettings) 150).2.2.1 (by decide) (by decide) (by decide)
  · exact (c6_start_rejected_unchanged defaultSettings deck_plain
      st_active 10).2.2.2 g_active (by decide) (by decide) (by decide)
      (by decide)

/-- C2 (amended): when the persisted deck of the active game is empty,
`hit` rejects with "Deck is empty" and mutates nothing — it does not
refill the deck; when the deck is non-empty, the draw into the player
hand succeeds and the score is recomputed. -/
theorem c2_hit_empty_deck_rejects (st : PState) (g : GameSession)
    (hg : get_active_game st.games = some g) :
    (g.deck_state = [] → hit st = (st, Except.error "Deck is empty")) ∧
    (∀ c rest, g.deck_state = c :: rest →
      ∃ g2, (hit st).2 = Except.ok g2 ∧
        g2.player_hand = g.player_hand ++ [c] ∧ g2.deck_state = rest ∧
        g2.player_score = calculate (g.player_hand ++ [c])) := by
  unfold hit
  rw [hg]
  dsimp only
  constructor
  · intro h
    rw [h]
  · intro c rest h
    rw [h]
    dsimp only
    by_cases hb : is_bust (calculate (g.player_hand ++ [c])) = true
    · rw [if_pos hb]
      exact ⟨_, rfl, rfl, rfl, rfl⟩
    · rw [if_neg hb]
      exact ⟨_, rfl, rfl, rfl, rfl⟩

/-- C2 counterexample: in `st_active` the player has an active
IN_PROGRESS game whose persisted deck is empty, and `hit` fails with
"Deck is empty" instead of refilling the deck and drawing. -/
theorem c2_counterexample :
    get_active_game st_active.games = some g_active ∧
    g_active.deck_state = [] ∧
    hit st_active = (st_active, Except.error "Deck is empty") := by
  decide

/-- C2 witness: the rejection at the concrete empty-deck state, and a
successful draw at the concrete one-card-deck state. -/
theorem c2_witness :
    hit st_active = (st_active, Except.error "Deck is empty") ∧
    ((hit st_active2).2.toOption.map fun g => g.player_hand) =
      some [c_ten_s, c_five_h, c_two_s] := by
  constructor
  · exact (c2_hit_empty_deck_rejects st_active g_active (by decide)).1
      (by decide)
  · obtain ⟨g2, h1, h2, h3, h4⟩ :=
      (c2_hit_empty_deck_rejects st_active2 g_active2 (by decide)).2
        c_two_s [] (by decide)
    rw [h1]
    simp [Except.toOption, h2]
    decide

/-- The dealer loop stops only at the threshold or on an exhausted
deck. -/
lemma dealer_loop_stops (t : Nat) (deck : List Card) :
    ∀ hand, t ≤ calculate (dealer_loop t hand deck).1 ∨
      (dealer_loop t hand deck).2 = [] := by
  induction deck with
  | nil => intro hand; right; rfl
  | cons c rest ih =>
    intro hand
    by_cases h : calculate hand < t
    · simp only [dealer_loop, if_pos h]
      exact ih (hand ++ [c])
    · simp only [dealer_loop, if_neg h]
      left
      omega

/-- C3 (amended): on `stand`, the dealer draws while the recomputed score
is below the threshold AND the persisted deck is non-empty — no refill
happens — so when the dealer stops, the final dealer score is at least
the threshold unless the deck ran out. -/
theorem c3_dealer_reaches_threshold_or_deck_empty (s : Settings)
    (st : PState) (g : GameSession)
    (hg : get_active_game st.games = some g) :
    ∃ g2, (stand s st).2 = Except.ok g2 ∧
      g2.dealer_hand =
        (dealer_loop s.dealer_stand_threshold g.dealer_hand g.deck_state).1 ∧
      g2.dealer_score = calculate g2.dealer_hand ∧
      g2.deck_state =
        (dealer_loop s.dealer_stand_threshold g.dealer_hand g.deck_state).2 ∧
      (s.dealer_stand_threshold ≤ g2.dealer_score ∨ g2.deck_state = []) := by
  unfold stand
  rw [hg]
  dsimp only
  by_cases h1 : is_bust (calculate
      (dealer_loop s.dealer_stand_threshold g.dealer_hand g.deck_state).1) = true
  · rw [if_pos h1]
    exact ⟨_, rfl, rfl, rfl, rfl, dealer_loop_stops _ _ _⟩
  · rw [if_neg h1]
    by_cases h2 : calculate
        (dealer_loop s.dealer_stand_threshold g.dealer_hand g.deck_state).1 >
        g.player_score
    · rw [if_pos h2]
      exact ⟨_, rfl, rfl, rfl, rfl, dealer_loop_stops _ _ _⟩
    · rw [if_neg h2]
      by_cases h3 : calculate
          (dealer_loop s.dealer_stand_threshold g.dealer_hand g.deck_state).1 <
          g.player_score
      · rw [if_pos h3]
        exact ⟨_, rfl, rfl, rfl, rfl, dealer_loop_stops _ _ _⟩
      · rw [if_neg h3]
        exact ⟨_, rfl, rfl, rfl, rfl, dealer_loop_stops _ _ _⟩

/-- C3 counterexample: in `st_active` the dealer holds 16 and the
persisted deck is empty; `stand` does not refill the deck and settles
with a final dealer score of 16, below the default threshold 17. -/
theorem c3_counterexample :
    ((stand defaultSettings st_active).2.toOption.map fun g =>
      g.dealer_score) = some 16 ∧
    16 < defaultSettings.dealer_stand_threshold := by
  constructor
  · decide
  · decide

/-- C3 witness: at the concrete empty-deck state the disjunction of the
amended claim holds (here through the exhausted deck). -/
theorem c3_witness :
    ((stand defaultSettings st_active).2.toOption.map fun g =>
      decide (defaultSettings.dealer_stand_threshold ≤ g.dealer_score) ||
        decide (g.deck_state = [])) = some true := by
  obtain ⟨g2, h1, h2, h3, h4, h5⟩ :=
    c3_dealer_reaches_threshold_or_deck_empty defaultSettings st_active
      g_active (by decide)
  rw [h1]
  simp only [Except.toOption, Option.map_some, Option.some.injEq]
  rcases h5 with h | h
  · simp [h]
  · simp [h]

/-- C4 (amended): a valid bet whose deal gives the player a natural and
not the dealer ends with status BLACKJACK, and the amount credited is
`int(bet × (1 + blackjackPayoutMultiplier))` — the floor of the product,
e.g. ⌊2.5 × bet⌋ with the default multiplier 1.5 — which equals
2.5 × bet exactly only when that product is an integer (even bets). -/
theorem c4_blackjack_pays_floor (s : Settings) (st : PState) (bet : Int)
    (c1 c2 c3 c4 : Card) (rest : List Card)
    (hmin : s.min_bet ≤ bet) (hmax : bet ≤ s.max_bet)
    (hbal : bet ≤ st.player.balance)
    (hactive : get_active_game st.games = none)
    (hbj : is_blackjack [c1, c2] = true)
    (hnbj : is_blackjack [c3, c4] = false) :
    ∃ game,
      (start_game s (c1 :: c2 :: c3 :: c4 :: rest) st bet).2 =
        Except.ok game ∧
      game.status = GameStatus.blackjack ∧
      game.payout = ⌊(bet : ℚ) * (1 + s.blackjack_payout)⌋ ∧
      (start_game s (c1 :: c2 :: c3 :: c4 :: rest) st bet).1.player.balance =
        st.player.balance - bet + ⌊(bet : ℚ) * (1 + s.blackjack_payout)⌋ := by
  unfold start_game
  rw [if_neg (by omega : ¬ bet < s.min_bet),
      if_neg (by omega : ¬ bet > s.max_bet),
      if_neg (by omega : ¬ bet > st.player.balance), hactive]
  dsimp only
  rw [hbj, hnbj]
  simp only [if_true, Bool.false_eq_true, if_false]
  exact ⟨_, rfl, rfl, rfl, rfl⟩

/-- C4 counterexample: with the default multiplier 1.5 and the valid bet
5, a player natural credits `int(5 × 2.5) = 12`, not the exact
2.5 × 5 = 12.5 the claim states. -/
theorem c4_counterexample :
    (start_bj5.2.toOption.map fun g => g.payout) = some 12 ∧
    start_bj5.1.player.balance = 107 ∧
    (12 : ℚ) ≠ (5 : ℚ) * (1 + defaultSettings.blackjack_payout) := by
  have hpay : blackjack_payout_amount defaultSettings 5 = 12 := by
    unfold blackjack_payout_amount defaultSettings
    norm_num
  have h0 : (start_bj5.2.toOption.map fun g => g.payout) =
      some (blackjack_payout_amount defaultSettings 5) := rfl
  have h1 : start_bj5.1.player.balance =
      100 - 5 + blackjack_payout_amount defaultSettings 5 := rfl
  refine ⟨by rw [h0, hpay], by rw [h1, hpay]; decide, ?_⟩
  unfold defaultSettings
  norm_num

/-- C4 witness: the even bet 10 at a fresh player with a natural deal,
where the floor is exact: credit 25, balance 100 − 10 + 25 = 115. -/
theorem c4_witness :
    ((start_game defaultSettings [c_ace_s, c_king_h, c_nine_d, c_seven_c]
        (init_state defaultSettings) 10).2.toOption.map fun g =>
          g.status) = some GameStatus.blackjack ∧
    (start_game defaultSettings [c_ace_s, c_king_h, c_nine_d, c_seven_c]
        (init_state defaultSettings) 10).1.player.balance = 115 := by
  obtain ⟨game, h1, h2, h3, h4⟩ :=
    c4_blackjack_pays_floor defaultSettings (init_state defaultSettings) 10
      c_ace_s c_king_h c_nine_d c_seven_c [] (by decide) (by decide)
      (by decide) (by decide) (by decide) (by decide)
  have hpay : (⌊(((10 : Int)) : ℚ) *
      (1 + defaultSettings.blackjack_payout)⌋ : Int) = 25 := by
    unfold defaultSettings
    norm_num
  constructor
  · rw [h1,
      show ((Except.ok game : Except String GameSession).toOption.map
        fun g => g.status) = some game.status from rfl, h2]
  · rw [h4, hpay]
    decide

/-- C5: `stand` on a state with an active game always settles it in a
terminal status, and with balanceBeforeBet = b0 (so the post-escrow
balance is b0 − bet) the final balance is b0 − bet + payout, with payout
2 × bet on DEALER_BUST or PLAYER_WIN, bet on PUSH and 0 on DEALER_WIN,
resolved with the precedence dealer-bust, then score comparison, then
push. -/
theorem c5_stand_settles_balance (s : Settings) (st : PState)
    (g : GameSession) (b0 : Int)
    (hg : get_active_game st.games = some g)
    (hb : st.player.balance = b0 - g.bet_amount) :
    ∃ g2, (stand s st).2 = Except.ok g2 ∧
      g2.status ≠ GameStatus.in_progress ∧
      (if 21 < calculate
          (dealer_loop s.dealer_stand_threshold g.dealer_hand g.deck_state).1
       then
         g2.status = GameStatus.dealer_bust ∧
           (stand s st).1.player.balance =
             b0 - g.bet_amount + 2 * g.bet_amount
       else if g.player_score < calculate
          (dealer_loop s.dealer_stand_threshold g.dealer_hand g.deck_state).1
       then
         g2.status = GameStatus.dealer_win ∧
           (stand s st).1.player.balance = b0 - g.bet_amount + 0
       else if calculate
          (dealer_loop s.dealer_stand_threshold g.dealer_hand g.deck_state).1 <
          g.player_score
       then
         g2.status = GameStatus.player_win ∧
           (stand s st).1.player.balance =
             b0 - g.bet_amount + 2 * g.bet_amount
       else
         g2.status = GameStatus.push ∧
           (stand s st).1.player.balance =
             b0 - g.bet_amount + g.bet_amount) := by
  unfold stand
  rw [hg]
  dsimp only
  by_cases h1 : 21 < calculate
      (dealer_loop s.dealer_stand_threshold g.dealer_hand g.deck_state).1
  · rw [if_pos (by simpa [is_bust] using h1)]
    refine ⟨_, rfl,
      (by decide : GameStatus.dealer_bust ≠ GameStatus.in_progress), ?_⟩
    rw [if_pos h1]
    exact ⟨rfl, by rw [hb]; ring⟩
  · rw [if_neg (by simpa [is_bust] using h1)]
    by_cases h2 : g.player_score < calculate
        (dealer_loop s.dealer_stand_threshold g.dealer_hand g.deck_state).1
    · rw [if_pos (show calculate _ > g.player_score from h2)]
      refine ⟨_, rfl,
        (by decide : GameStatus.dealer_win ≠ GameStatus.in_progress), ?_⟩
      rw [if_neg h1, if_pos h2]
      exact ⟨rfl, by rw [hb]; ring⟩
    · rw [if_neg (show ¬ calculate _ > g.player_score from h2)]
      by_cases h3 : calculate
          (dealer_loop s.dealer_stand_threshold g.dealer_hand g.deck_state).1 <
          g.player_score
      · rw [if_pos h3]
        refine ⟨_, rfl,
          (by decide : GameStatus.player_win ≠ GameStatus.in_progress), ?_⟩
        rw [if_neg h1, if_neg h2, if_pos h3]
        exact ⟨rfl, by rw [hb]; ring⟩
      · rw [if_neg h3]
        refine ⟨_, rfl,
          (by decide : GameStatus.push ≠ GameStatus.in_progress), ?_⟩
        rw [if_neg h1, if_neg h2, if_neg h3]
        exact ⟨rfl, by rw [hb]⟩

/-- C5 witness: standing at `st_active` (dealer 16 vs player 15, bet 10,
b0 = 100): dealer wins, payout 0, balance 100 − 10 + 0 = 90. -/
theorem c5_witness :
    ((stand defaultSettings st_active).2.toOption.map fun g => g.status) =
      some GameStatus.dealer_win ∧
    (stand defaultSettings st_active).1.player.balance = 90 := by
  obtain ⟨g2, h1, h2, h3⟩ :=
    c5_stand_settles_balance defaultSettings st_active g_active 100
      (by decide) (by decide)
  rw [show calculate (dealer_loop defaultSettings.dealer_stand_threshold
      g_active.dealer_hand g_active.deck_state).1 = 16 from by decide] at h3
  norm_num [g_active] at h3
  constructor
  · rw [h1, show ((Except.ok g2 : Except String GameSession).toOption.map
      fun g => g.status) = some g2.status from rfl, h3.1]
  · exact h3.2

/-- C8: while a game is IN_PROGRESS the view replaces the dealer's
second card with the sentinel hidden card and exposes only the first
dealer card's value as the dealer score, so two IN_PROGRESS games that
differ only in the dealer's second card produce equal views; a terminal
game exposes the full dealer hand and the stored dealer score. -/
theorem c8_view_hides_hole_card (p : Player) (g g2 gdone : GameSession)
    (d0 x y : Card) (t : List Card)
    (hs : g.status = GameStatus.in_progress)
    (hd : g.dealer_hand = d0 :: x :: t)
    (hg2 : g2 = { g with dealer_hand := d0 :: y :: t })
    (hdone : gdone.status ≠ GameStatus.in_progress) :
    get_game_state g p = get_game_state g2 p ∧
    (get_game_state g p).map (fun v => v.dealerHand) =
      some [Card.to_dict d0, hidden_card] ∧
    (get_game_state g p).map (fun v => v.dealerScore) = some d0.value ∧
    (get_game_state gdone p).map (fun v => v.dealerHand) =
      some (gdone.dealer_hand.map Card.to_dict) ∧
    (get_game_state gdone p).map (fun v => v.dealerScore) =
      some gdone.dealer_score := by
  subst hg2
  refine ⟨?_, ?_, ?_, ?_, ?_⟩
  · simp [get_game_state, hs, hd]
  · simp [get_game_state, hs, hd]
  · simp [get_game_state, hs, hd]
  · simp [get_game_state, hdone]
  · simp [get_game_state, hdone]

/-- C8 witness: hiding the concrete hole card 7♣ or K♥ yields the same
view, and the terminal game `g_done` exposes its true dealer score. -/
theorem c8_witness :
    get_game_state g_active (init_state defaultSettings).player =
      get_game_state { g_active with dealer_hand := [c_nine_d, c_king_h] }
        (init_state defaultSettings).player ∧
    (get_game_state g_done (init_state defaultSettings).player).map
      (fun v => v.dealerScore) = some 16 := by
  obtain ⟨h1, h2, h3, h4, h5⟩ :=
    c8_view_hides_hole_card (init_state defaultSettings).player g_active
      { g_active with dealer_hand := [c_nine_d, c_king_h] } g_done
      c_nine_d c_seven_c c_king_h [] (by decide) (by decide) rfl (by decide)
  refine ⟨h1, ?_⟩
  rw [h5]
  rfl

/-- C9: `reset_player` sets the balance to the configured initial value
(100 by default) for every prior balance and leaves all four cumulative
totals untouched. -/
theorem c9_reset_balance_frame (s : Settings) (st : PState) :
    (reset_player s st).player.balance = s.initial_balance ∧
    (reset_player s st).player.total_games = st.player.total_games ∧
    (reset_player s st).player.total_wins = st.player.total_wins ∧
    (reset_player s st).player.total_losses = st.player.total_losses ∧
    (reset_player s st).player.total_pushes = st.player.total_pushes ∧
    defaultSettings.initial_balance = 100 :=
  ⟨rfl, rfl, rfl, rfl, rfl, rfl⟩

/-! Helper lemmas for the state invariants (claims C7 and C10). -/

lemma active_count_nil : active_count [] = 0 := rfl

lemma active_count_cons (g : GameSession) (t : List GameSession) :
    active_count (g :: t) =
      (if g.status = GameStatus.in_progress then 1 else 0) + active_count t := by
  unfold active_count
  by_cases h : g.status = GameStatus.in_progress
  · simp [List.filter_cons, h, Nat.add_comm]
  · simp [List.filter_cons, h]

lemma active_count_append (xs ys : List GameSession) :
    active_count (xs ++ ys) = active_count xs + active_count ys := by
  unfold active_count
  rw [List.filter_append, List.length_append]

lemma active_count_of_none {games : List GameSession}
    (h : get_active_game games = none) : active_count games = 0 := by
  unfold get_active_game at h
  unfold active_count
  rw [List.length_eq_zero, List.filter_eq_nil_iff]
  exact fun a ha => by simpa using List.find?_eq_none.mp h a ha

lemma update_game_ids (games : List GameSession) (g2 : GameSession) :
    ids (update_game games g2) = ids games := by
  unfold ids update_game
  rw [List.map_map]
  apply List.map_congr_left
  intro h _
  by_cases hc : h.id = g2.id
  · simp [Function.comp, hc]
  · simp [Function.comp, hc]

lemma update_game_of_forall_ne {t : List GameSession} {g2 : GameSession}
    (h : ∀ x ∈ t, x.id ≠ g2.id) : update_game t g2 = t := by
  unfold update_game
  conv_rhs => rw [← List.map_id t]
  apply List.map_congr_left
  intro x hx
  simp [h x hx]

lemma active_count_update_le {games : List GameSession} {g g2 : GameSession}
    (hfind : get_active_game games = some g) (hid : g2.id = g.id)
    (hnodup : (ids games).Nodup) (hle : active_count games ≤ 1) :
    active_count (update_game games g2) ≤ 1 := by
  induction games with
  | nil => simp [get_active_game] at hfind
  | cons a t ih =>
    unfold get_active_game at hfind
    rw [List.find?_cons] at hfind
    rw [ids, List.map_cons, List.nodup_cons] at hnodup
    cases hq : a.status == GameStatus.in_progress with
    | true =>
      rw [hq] at hfind
      have hpa : a.status = GameStatus.in_progress := by simpa using hq
      have hga : g = a := by simpa using hfind.symm
      have hta : active_count t = 0 := by
        rw [active_count_cons, if_pos hpa] at hle
        omega
      have hhead : (a.id == g2.id) = true := by
        simp [hid, hga]
      have htail : update_game t g2 = t := by
        apply update_game_of_forall_ne
        intro x hx hcon
        exact hnodup.1 (by
          rw [← hga, ← hid, ← hcon]
          exact List.mem_map_of_mem (fun g => g.id) hx)
      unfold update_game
      rw [List.map_cons, if_pos hhead]
      have hrest : update_game t g2 = List.map
          (fun h => if h.id == g2.id then g2 else h) t := rfl
      rw [← hrest, htail, active_count_cons]
      by_cases hg2s : g2.status = GameStatus.in_progress
      · rw [if_pos hg2s]
        omega
      · rw [if_neg hg2s]
        omega
    | false =>
      rw [hq] at hfind
      have hpa : ¬ a.status = GameStatus.in_progress := by simpa using hq
      have hg_mem : g ∈ t := List.mem_of_find?_eq_some hfind
      have hhead : (a.id == g2.id) = false := by
        simp only [beq_eq_false_iff_ne, ne_eq]
        intro hcon
        exact hnodup.1 (by
          rw [hcon, hid]
          exact List.mem_map_of_mem (fun g => g.id) hg_mem)
      have hle' : active_count t ≤ 1 := by
        rw [active_count_cons, if_neg hpa] at hle
        omega
      unfold update_game
      rw [List.map_cons, if_neg (by simp [hhead])]
      have hrest : update_game t g2 = List.map
          (fun h => if h.id == g2.id then g2 else h) t := rfl
      rw [← hrest, active_count_cons, if_neg hpa]
      have := ih hfind hnodup.2 hle'
      omega

/-- Case analysis of `start_game`: a rejection returns the state
unchanged; a success requires no active game and appends exactly one
game with the fresh primary key, with the totals untouched (open deal)
or games+wins or games+pushes bumped (natural resolved at deal time). -/
lemma start_cases (s : Settings) (deck : List Card) (st : PState)
    (bet : Int) :
    (start_game s deck st bet).1 = st ∨
    (get_active_game st.games = none ∧
      ∃ g, g.id = st.next_id ∧
        (start_game s deck st bet).1.games = st.games ++ [g] ∧
        (start_game s deck st bet).1.next_id = st.next_id + 1 ∧
        (((start_game s deck st bet).1.player.total_games =
            st.player.total_games ∧
          (start_game s deck st bet).1.player.total_wins =
            st.player.total_wins ∧
          (start_game s deck st bet).1.player.total_losses =
            st.player.total_losses ∧
          (start_game s deck st bet).1.player.total_pushes =
            st.player.total_pushes) ∨
         ((start_game s deck st bet).1.player.total_games =
            st.player.total_games + 1 ∧
          (start_game s deck st bet).1.player.total_wins =
            st.player.total_wins + 1 ∧
          (start_game s deck st bet).1.player.total_losses =
            st.player.total_losses ∧
          (start_game s deck st bet).1.player.total_pushes =
            st.player.total_pushes) ∨
         ((start_game s deck st bet).1.player.total_games =
            st.player.total_games + 1 ∧
          (start_game s deck st bet).1.player.total_wins =
            st.player.total_wins ∧
          (start_game s deck st bet).1.player.total_losses =
            st.player.total_losses ∧
          (start_game s deck st bet).1.player.total_pushes =
            st.player.total_pushes + 1))) := by
  unfold start_game
  by_cases h1 : bet < s.min_bet
  · rw [if_pos h1]
    left
    rfl
  rw [if_neg h1]
  by_cases h2 : bet > s.max_bet
  · rw [if_pos h2]
    left
    rfl
  rw [if_neg h2]
  by_cases h3 : bet > st.player.balance
  · rw [if_pos h3]
    left
    rfl
  rw [if_neg h3]
  cases hO : get_active_game st.games with
  | some g0 =>
    left
    rfl
  | none =>
    dsimp only
    rcases deck with _ | ⟨d1, _ | ⟨d2, _ | ⟨d3, _ | ⟨d4, rest⟩⟩⟩⟩
    · left; rfl
    · left; rfl
    · left; rfl
    · left; rfl
    dsimp only
    by_cases hpb : is_blackjack [d1, d2] = true
    · rw [if_pos hpb]
      by_cases hdb : is_blackjack [d3, d4] = true
      · rw [if_pos hdb]
        right
        exact ⟨rfl, _, rfl, rfl, rfl, Or.inr (Or.inr ⟨rfl, rfl, rfl, rfl⟩)⟩
      · rw [if_neg hdb]
        right
        exact ⟨rfl, _, rfl, rfl, rfl, Or.inr (Or.inl ⟨rfl, rfl, rfl, rfl⟩)⟩
    · rw [if_neg hpb]
      right
      exact ⟨rfl, _, rfl, rfl, rfl, Or.inl ⟨rfl, rfl, rfl, rfl⟩⟩

/-- Case analysis of `hit`: a rejection returns the state unchanged; a
success updates the active game row in place (same primary keys, same
autoincrement counter), leaving the totals untouched or bumping
games+losses on a bust. -/
lemma hit_cases (st : PState) :
    (hit st).1 = st ∨
    (∃ game g2, get_active_game st.games = some game ∧ g2.id = game.id ∧
      (hit st).1.games = update_game st.games g2 ∧
      (hit st).1.next_id = st.next_id ∧
      ((hit st).1.player = st.player ∨
       ((hit st).1.player.total_games = st.player.total_games + 1 ∧
        (hit st).1.player.total_wins = st.player.total_wins ∧
        (hit st).1.player.total_losses = st.player.total_losses + 1 ∧
        (hit st).1.player.total_pushes = st.player.total_pushes))) := by
  unfold hit
  cases hO : get_active_game st.games with
  | none => left; rfl
  | some game =>
    dsimp only
    cases hd : game.deck_state with
    | nil => left; rfl
    | cons c rest =>
      dsimp only
      by_cases hb : is_bust (calculate (game.player_hand ++ [c])) = true
      · rw [if_pos hb]
        right
        exact ⟨game,
          { game with
            status := GameStatus.player_bust,
            player_hand := game.player_hand ++ [c], deck_state := rest,
            player_score := calculate (game.player_hand ++ [c]),
            message := "Bust! You lose!" },
          rfl, rfl, rfl, rfl, Or.inr ⟨rfl, rfl, rfl, rfl⟩⟩
      · rw [if_neg hb]
        right
        exact ⟨game,
          { game with
            player_hand := game.player_hand ++ [c],
            deck_state := rest,
            player_score := calculate (game.player_hand ++ [c]) },
          rfl, rfl, rfl, rfl, Or.inl rfl⟩

/-- Case analysis of `stand`: a rejection returns the state unchanged; a
success updates the active game row in place and bumps games plus
exactly one of wins, losses, pushes. -/
lemma stand_cases (s : Settings) (st : PState) :
    (stand s st).1 = st ∨
    (∃ game g2, get_active_game st.games = some game ∧ g2.id = game.id ∧
      (stand s st).1.games = update_game st.games g2 ∧
      (stand s st).1.next_id = st.next_id ∧
      (stand s st).1.player.total_games = st.player.total_games + 1 ∧
      (((stand s st).1.player.total_wins = st.player.total_wins + 1 ∧
        (stand s st).1.player.total_losses = st.player.total_losses ∧
        (stand s st).1.player.total_pushes = st.player.total_pushes) ∨
       ((stand s st).1.player.total_wins = st.player.total_wins ∧
        (stand s st).1.player.total_losses = st.player.total_losses + 1 ∧
        (stand s st).1.player.total_pushes = st.player.total_pushes) ∨
       ((stand s st).1.player.total_wins = st.player.total_wins ∧
        (stand s st).1.player.total_losses = st.player.total_losses ∧
        (stand s st).1.player.total_pushes = st.player.total_pushes + 1))) := by
  unfold stand
  cases hO : get_active_game st.games with
  | none => left; rfl
  | some game =>
    dsimp only
    by_cases h1 : is_bust (calculate
        (dealer_loop s.dealer_stand_threshold game.dealer_hand
          game.deck_state).1) = true
    · rw [if_pos h1]
      right
      exact ⟨game,
        { game with
          status := GameStatus.dealer_bust,
          dealer_hand := (dealer_loop s.dealer_stand_threshold
            game.dealer_hand game.deck_state).1,
          deck_state := (dealer_loop s.dealer_stand_threshold
            game.dealer_hand game.deck_state).2,
          dealer_score := calculate (dealer_loop s.dealer_stand_threshold
            game.dealer_hand game.deck_state).1,
          message := "Dealer busts! You win!",
          payout := game.bet_amount * 2 },
        rfl, rfl, rfl, rfl, rfl, Or.inl ⟨rfl, rfl, rfl⟩⟩
    · rw [if_neg h1]
      by_cases h2 : calculate (dealer_loop s.dealer_stand_threshold
          game.dealer_hand game.deck_state).1 > game.player_score
      · rw [if_pos h2]
        right
        exact ⟨game,
          { game with
            status := GameStatus.dealer_win,
            dealer_hand := (dealer_loop s.dealer_stand_threshold
              game.dealer_hand game.deck_state).1,
            deck_state := (dealer_loop s.dealer_stand_threshold
              game.dealer_hand game.deck_state).2,
            dealer_score := calculate (dealer_loop s.dealer_stand_threshold
              game.dealer_hand game.deck_state).1,
            message := "Dealer wins!" },
          rfl, rfl, rfl, rfl, rfl, Or.inr (Or.inl ⟨rfl, rfl, rfl⟩)⟩
      · rw [if_neg h2]
        by_cases h3 : calculate (dealer_loop s.dealer_stand_threshold
            game.dealer_hand game.deck_state).1 < game.player_score
        · rw [if_pos h3]
          right
          exact ⟨game,
            { game with
              status := GameStatus.player_win,
              dealer_hand := (dealer_loop s.dealer_stand_threshold
                game.dealer_hand game.deck_state).1,
              deck_state := (dealer_loop s.dealer_stand_threshold
                game.dealer_hand game.deck_state).2,
              dealer_score := calculate (dealer_loop s.dealer_stand_threshold
                game.dealer_hand game.deck_state).1,
              message := "You win!",
              payout := game.bet_amount * 2 },
            rfl, rfl, rfl, rfl, rfl, Or.inl ⟨rfl, rfl, rfl⟩⟩
        · rw [if_neg h3]
          right
          exact ⟨game,
            { game with
              status := GameStatus.push,
              dealer_hand := (dealer_loop s.dealer_stand_threshold
                game.dealer_hand game.deck_state).1,
              deck_state := (dealer_loop s.dealer_stand_threshold
                game.dealer_hand game.deck_state).2,
              dealer_score := calculate (dealer_loop s.dealer_stand_threshold
                game.dealer_hand game.deck_state).1,
              message := "Push!",
              payout := game.bet_amount },
            rfl, rfl, rfl, rfl, rfl, Or.inr (Or.inr ⟨rfl, rfl, rfl⟩)⟩

lemma inv_init (s : Settings) : StateInv (init_state s) :=
  ⟨by simp [init_state, active_count_nil], by simp [init_state, ids],
    by simp [init_state, ids]⟩

lemma inv_start (s : Settings) (deck : List Card) (st : PState) (bet : Int)
    (h : StateInv st) : StateInv (start_game s deck st bet).1 := by
  rcases start_cases s deck st bet with heq | ⟨hO, g, hgid, hgames, hnext, _⟩
  · rw [heq]
    exact h
  · obtain ⟨h1, h2, h3⟩ := h
    refine ⟨?_, ?_, ?_⟩
    · rw [hgames, active_count_append, active_count_of_none hO,
        active_count_cons, active_count_nil]
      split
      · omega
      · omega
    · rw [hgames, ids, List.map_append]
      rw [List.nodup_append]
      refine ⟨h2, by simp, ?_⟩
      intro x hx
      simp only [List.map_cons, List.map_nil, List.mem_singleton]
      intro hcon
      have := h3 x hx
      omega
    · rw [hgames, hnext, ids, List.map_append]
      intro i hi
      rcases List.mem_append.mp hi with hi | hi
      · have := h3 i hi
        omega
      · simp only [List.map_cons, List.map_nil, List.mem_singleton] at hi
        omega

lemma inv_hit (st : PState) (h : StateInv st) : StateInv (hit st).1 := by
  rcases hit_cases st with heq | ⟨game, g2, hO, hid, hgames, hnext, _⟩
  · rw [heq]
    exact h
  · obtain ⟨h1, h2, h3⟩ := h
    refine ⟨?_, ?_, ?_⟩
    · rw [hgames]
      exact active_count_update_le hO hid h2 h1
    · rw [hgames, update_game_ids]
      exact h2
    · rw [hgames, hnext, update_game_ids]
      exact h3

lemma inv_stand (s : Settings) (st : PState) (h : StateInv st) :
    StateInv (stand s st).1 := by
  rcases stand_cases s st with heq | ⟨game, g2, hO, hid, hgames, hnext, _⟩
  · rw [heq]
    exact h
  · obtain ⟨h1, h2, h3⟩ := h
    refine ⟨?_, ?_, ?_⟩
    · rw [hgames]
      exact active_count_update_le hO hid h2 h1
    · rw [hgames, update_game_ids]
      exact h2
    · rw [hgames, hnext, update_game_ids]
      exact h3

lemma reachable_inv {st : PState} (h : Reachable st) : StateInv st := by
  induction h with
  | init s => exact inv_init s
  | start_step s deck bet _ ih => exact inv_start s deck _ bet ih
  | hit_step _ ih => exact inv_hit _ ih
  | stand_step s _ ih => exact inv_stand s _ ih
  | reset_step s _ ih => exact ih

lemma hit_keeps_ids (st : PState) :
    ids (hit st).1.games = ids st.games := by
  rcases hit_cases st with heq | ⟨game, g2, _, _, hgames, _, _⟩
  · rw [heq]
  · rw [hgames, update_game_ids]

lemma stand_keeps_ids (s : Settings) (st : PState) :
    ids (stand s st).1.games = ids st.games := by
  rcases stand_cases s st with heq | ⟨game, g2, _, _, hgames, _, _⟩
  · rw [heq]
  · rw [hgames, update_game_ids]

/-- C7: every reachable state has at most one IN_PROGRESS game; a start
against an active game (with an otherwise valid bet) is rejected with
"Game already in progress" and changes nothing; `hit` and `stand` keep
the set of game rows (by primary key) unchanged — they never open a new
game. -/
theorem c7_at_most_one_active_game (s : Settings) (deck : List Card)
    (bet : Int) {st : PState} (hreach : Reachable st) :
    active_count st.games ≤ 1 ∧
    (∀ g, s.min_bet ≤ bet → bet ≤ s.max_bet → bet ≤ st.player.balance →
      get_active_game st.games = some g →
      start_game s deck st bet =
        (st, Except.error "Game already in progress")) ∧
    ids (hit st).1.games = ids st.games ∧
    ids (stand s st).1.games = ids st.games := by
  refine ⟨(reachable_inv hreach).1, ?_, hit_keeps_ids st, stand_keeps_ids s st⟩
  intro g hmin hmax hbal hg
  exact start_reject_active (by omega) (by omega) (by omega) hg

/-- C7 witness: at the concrete reachable state `st_active` (one active
game) the count is ≤ 1, a second start with the valid bet 20 is
rejected, and `hit` does not create a game row. -/
theorem c7_witness :
    active_count st_active.games ≤ 1 ∧
    start_game defaultSettings deck_plain st_active 20 =
      (st_active, Except.error "Game already in progress") ∧
    ids (hit st_active).1.games = ids st_active.games := by
  have hr : Reachable st_active :=
    Reachable.start_step defaultSettings deck_plain 10
      (Reachable.init defaultSettings)
  have h := c7_at_most_one_active_game defaultSettings deck_plain 20 hr
  exact ⟨h.1, h.2.1 g_active (by decide) (by decide) (by decide) (by decide),
    h.2.2.1⟩

/-- C10: in every reachable state the games-played counter equals the
sum of the wins, losses and pushes counters: every transition that
settles a game bumps the games counter and exactly one outcome counter,
and no other operation touches any of them. -/
theorem c10_totals_balance_counters {st : PState} (hreach : Reachable st) :
    st.player.total_games =
      st.player.total_wins + st.player.total_losses +
        st.player.total_pushes := by
  induction hreach with
  | init s => simp [init_state]
  | start_step s deck bet _ ih =>
    rcases start_cases s deck _ bet with heq | ⟨_, g, _, _, _, htot⟩
    · rw [heq]
      exact ih
    · rcases htot with ⟨e1, e2, e3, e4⟩ | ⟨e1, e2, e3, e4⟩ | ⟨e1, e2, e3, e4⟩ <;>
        rw [e1, e2, e3, e4] <;> omega
  | hit_step _ ih =>
    rcases hit_cases _ with heq | ⟨game, g2, _, _, _, _, htot⟩
    · rw [heq]
      exact ih
    · rcases htot with he | ⟨e1, e2, e3, e4⟩
      · rw [he]
        exact ih
      · rw [e1, e2, e3, e4]
        omega
  | stand_step s _ ih =>
    rcases stand_cases s _ with heq | ⟨game, g2, _, _, _, _, e1, htot⟩
    · rw [heq]
      exact ih
    · rcases htot with ⟨e2, e3, e4⟩ | ⟨e2, e3, e4⟩ | ⟨e2, e3, e4⟩ <;>
        rw [e1, e2, e3, e4] <;> omega
  | reset_step s _ ih => exact ih

/-- C10 witness: after the reachable sequence start-then-stand the
counters read 1 = 1 + 0 + 0. -/
theorem c10_witness :
    (stand defaultSettings st_active).1.player.total_games =
      (stand defaultSettings st_active).1.player.total_wins +
        (stand defaultSettings st_active).1.player.total_losses +
        (stand defaultSettings st_active).1.player.total_pushes := by
  exact c10_totals_balance_counters
    (Reachable.stand_step defaultSettings
      (Reachable.start_step defaultSettings deck_plain 10
        (Reachable.init defaultSettings)))

end Blackjack
